import Mathlib

/-!
Shallow embedding of the `statistics` repository (src/a12.py, src/utils.py,
src/statistical_tests.py): the Vargha-Delaney A12 effect size and its
categorization, tie detection, the Mann-Whitney-U safety gate, the
best-competitor selection loops, and the k-sample orchestration dispatch.
Real arithmetic of the source is modelled exactly over ℚ.
-/

namespace Statistics

/-- The `more` counter of the double loop in `a12` (src/a12.py, lines 50-57):
number of pairs (x, y) with x drawn from `tweak`, y drawn from `baseline`,
and x > y. -/
def moreCount (tweak baseline : List Int) : Nat :=
  (tweak.map fun x => baseline.countP fun y => decide (y < x)).sum

/-- The `same` counter of the same loop: number of pairs with x == y. -/
def sameCount (tweak baseline : List Int) : Nat :=
  (tweak.map fun x => baseline.countP fun y => decide (x = y)).sum

/-- Outcome of `a12`: the Python assert on unequal lengths is
`lengthMismatch`; the ZeroDivisionError raised when
`len(baseline)*len(tweak) == 0` is `divByZero`. -/
inductive A12Result where
  | lengthMismatch
  | divByZero
  | ok (effect_size : ℚ)
deriving DecidableEq

/-- `a12` (src/a12.py, lines 11-58): asserts equal lengths, counts `more`
and `same` over the full cross comparison, and returns
`(more + 0.5*same) / (len(baseline)*len(tweak))`. -/
def a12 (baseline tweak : List Int) : A12Result :=
  if baseline.length = tweak.length then
    if baseline.length * tweak.length = 0 then .divByZero
    else .ok (((moreCount tweak baseline : ℚ) + 0.5 * (sameCount tweak baseline : ℚ)) /
      ((baseline.length : ℚ) * (tweak.length : ℚ)))
  else .lengthMismatch

/-- `effect_size_categorization` (src/a12.py, lines 61-110): the ordered
threshold ladder; `none` models the trailing `raise ValueError`. -/
def effect_size_categorization (effect_size : ℚ) : Option String :=
  if effect_size > 0.71 then some "+L"
  else if effect_size > 0.64 then some "+M"
  else if effect_size > 0.56 then some "+S"
  else if effect_size > 0.50 then some "  "
  else if effect_size = 0.50 then some "  "
  else if effect_size < 0.29 then some "-L"
  else if effect_size < 0.36 then some "-M"
  else if effect_size < 0.44 then some "-S"
  else if effect_size < 0.50 then some "  "
  else none

/-- Python's `statistics.median`: sort, take the middle element for odd
length, the average of the two middle elements for even length.  On the
empty list Python raises StatisticsError; the model returns 0 there, and
every theorem that depends on the median of a possibly-empty list carries a
non-emptiness assumption instead. -/
def median (l : List Int) : ℚ :=
  let s := l.insertionSort (· ≤ ·)
  if l.length % 2 = 1 then ((s.getD (l.length / 2) 0 : Int) : ℚ)
  else (((s.getD (l.length / 2 - 1) 0 : Int) : ℚ) + ((s.getD (l.length / 2) 0 : Int) : ℚ)) / 2

/-- Python's `statistics.mean`: sum divided by length (raises on the empty
list; the model returns 0 there, see `median`). -/
def mean (l : List Int) : ℚ := ((l.sum : Int) : ℚ) / (l.length : ℚ)

/-- One iteration of the best-competitor loop shared by
`test_best_competitor` (src/statistical_tests.py, lines 131-140, with
fmp = median and fms = mean) and the best-competitor branch of
`perc_difference` (lines 92-103, where `args.use_mean` swaps the two):
skip the focal fuzzer; replace the running best when the candidate's
primary statistic is strictly larger, or equal with a strictly larger
secondary statistic. -/
def pick_one_best_step (primary : String) (fmp fms : List Int → ℚ)
    (best entry : String × List Int) : String × List Int :=
  if entry.1 = primary then best
  else if fmp entry.2 > fmp best.2 then entry
  else if fmp entry.2 = fmp best.2 then
    (if fms entry.2 > fms best.2 then entry else best)
  else best

/-- The whole best-competitor loop (the spec's `pick_one_best`): fold the
step function over the mapping in insertion order, starting from the
synthetic `("NONE", [0] * expected_runs)` entry. -/
def pick_one_best (data : List (String × List Int)) (primary : String)
    (fmp fms : List Int → ℚ) (expected_runs : Nat) : String × List Int :=
  data.foldl (pick_one_best_step primary fmp fms) ("NONE", List.replicate expected_runs 0)

/-- `contains_ties` (src/utils.py, lines 111-117): true iff
`len(set(data)) != len(data)`. -/
def contains_ties (data : List Int) : Bool :=
  if data.dedup.length ≠ data.length then true else false

/-- Outcome of `mann_whitney_u`: `tieFailure` is the assert firing in safe
mode; `result` carries the statistic and p-value of the scipy call. -/
inductive MWUOutcome where
  | tieFailure
  | result (stat p_value : ℚ)
deriving DecidableEq

/-- `mann_whitney_u` (src/utils.py, lines 51-64).  The scipy
`mannwhitneyu` call is an external collaborator and is abstracted as the
`provider` argument.  With `unsafe = false` the assert fires when the
combined data `baseline + tweak` contains ties; otherwise the provider is
invoked.  The `quiet` flag only controls diagnostic printing
(`validate_datasets`) and does not affect the outcome. -/
def mann_whitney_u (provider : List Int → List Int → ℚ × ℚ)
    (baseline tweak : List Int) (unsafe_ quiet : Bool) : MWUOutcome :=
  if unsafe_ = false then
    if contains_ties (baseline ++ tweak) then .tieFailure
    else .result (provider baseline tweak).1 (provider baseline tweak).2
  else .result (provider baseline tweak).1 (provider baseline tweak).2

/-- The message of the ValueError Python raises for `max([])` in
`find_best_competitor` when no non-focal fuzzer exists. -/
def no_competitor_msg : String := "max() arg is an empty sequence"

/-- `find_best_competitor` (src/utils.py, lines 19-48): rate every
non-focal fuzzer by median (or mean when `method = "mean"`), then return
all fuzzers achieving the maximal rating.  `max` over an empty ratings
dict raises ValueError, modelled as `.error no_competitor_msg`. -/
def find_best_competitor (tweak : String) (fuzzer_to_bbs : List (String × List Int))
    (method : String) : Except String (List String) :=
  let fn := if method = "mean" then mean else median
  let ratings := (fuzzer_to_bbs.filter fun p => p.1 ≠ tweak).map fun p => (p.1, fn p.2)
  match ratings.map Prod.snd with
  | [] => .error no_competitor_msg
  | v :: vs =>
    let max_val := vs.foldl max v
    .ok ((ratings.filter fun p => p.2 = max_val).map Prod.fst)

/-- The command-line options `test_data` and the best-competitor loops
read. -/
structure Args where
  tweak : String
  expected_runs : Nat
  allow_missing_runs : Bool

/-- The per-fuzzer filter of `test_data`'s k-sample branch
(src/statistical_tests.py, lines 158-172): with missing runs allowed, a
short sample is skipped; otherwise a length mismatch is a fatal assert;
a sample with fewer than 3 distinct values is skipped as essentially
constant. -/
def select_anova_groups (expected_runs : Nat) (allow_missing : Bool) :
    List (String × List Int) → Except String (List (String × List Int))
  | [] => .ok []
  | (f, fd) :: rest =>
    if allow_missing then
      if fd.length < expected_runs then select_anova_groups expected_runs allow_missing rest
      else if fd.dedup.length < 3 then select_anova_groups expected_runs allow_missing rest
      else do
        let tail ← select_anova_groups expected_runs allow_missing rest
        pure ((f, fd) :: tail)
    else
      if fd.length ≠ expected_runs then
        .error (f ++ ": unexpected number of runs")
      else if fd.dedup.length < 3 then select_anova_groups expected_runs allow_missing rest
      else do
        let tail ← select_anova_groups expected_runs allow_missing rest
        pure ((f, fd) :: tail)

/-- What `test_data` does with a named sample set: run the two-sample
comparison, run the k-sample ANOVA on the surviving groups, skip for lack
of groups, or fail an assert. -/
inductive TestDataOutcome where
  | twoWay
  | anovaRun (fuzzers : List String)
  | skippedNotEnoughGroups
  | notEnoughData
  | dataShapeFailure (msg : String)
deriving DecidableEq

/-- `test_data` (src/statistical_tests.py, lines 151-212): exactly 2
fuzzers dispatch to `test_twoway`; more than 2 filter the groups and run
`dec_anova` when at least 2 survive; otherwise there is not enough
data. -/
def test_data (data : List (String × List Int)) (args : Args) : TestDataOutcome :=
  if data.length = 2 then .twoWay
  else if data.length > 2 then
    match select_anova_groups args.expected_runs args.allow_missing_runs data with
    | .error m => .dataShapeFailure m
    | .ok fs => if fs.length < 2 then .skippedNotEnoughGroups
                else .anovaRun (fs.map Prod.fst)
  else .notEnoughData

/-- The spec's concrete scenario evaluated on the code: `more` is 16 and
the effect size 16/25 = 0.64. -/
theorem a12_scenario_value :
    a12 [11377, 11707, 11731, 11899, 12178] [11703, 11791, 12030, 12039, 12135] = .ok (16 / 25) := by
  have h1 : moreCount [11703, 11791, 12030, 12039, 12135]
      [11377, 11707, 11731, 11899, 12178] = 16 := by decide
  have h2 : sameCount [11703, 11791, 12030, 12039, 12135]
      [11377, 11707, 11731, 11899, 12178] = 0 := by decide
  simp [a12, h1, h2]
  norm_num

/-- C1, counterexample: for baseline=[11377,11707,11731,11899,12178] and
tweak=[11703,11791,12030,12039,12135], `a12` counts 16 of the 25 pairs as
'more' (not 18), returns effect size 16/25 = 0.64 (not 18/25 = 0.72), and
`effect_size_categorization` of the returned value is "+S", not "+L". -/
theorem a12_scenario_counterexample :
    moreCount [11703, 11791, 12030, 12039, 12135] [11377, 11707, 11731, 11899, 12178] ≠ 18 ∧
    a12 [11377, 11707, 11731, 11899, 12178] [11703, 11791, 12030, 12039, 12135] ≠ .ok (18 / 25) ∧
    a12 [11377, 11707, 11731, 11899, 12178] [11703, 11791, 12030, 12039, 12135] = .ok (16 / 25) ∧
    effect_size_categorization (16 / 25) ≠ some "+L" := by
  refine ⟨by decide, ?_, a12_scenario_value, ?_⟩
  · rw [a12_scenario_value]
    simp only [A12Result.ok.injEq, ne_eq]
    norm_num
  · norm_num [effect_size_categorization]
    decide

/-- C1, amended: on the spec's concrete scenario `a12` counts 16 of the 25
cross-comparison pairs as 'more', returns an effect size of exactly
16/25 = 0.64, and `effect_size_categorization` of that value is "+S"
(small positive). -/
theorem a12_scenario_amended :
    moreCount [11703, 11791, 12030, 12039, 12135] [11377, 11707, 11731, 11899, 12178] = 16 ∧
    a12 [11377, 11707, 11731, 11899, 12178] [11703, 11791, 12030, 12039, 12135] = .ok (16 / 25) ∧
    effect_size_categorization (16 / 25) = some "+S" := by
  refine ⟨by decide, a12_scenario_value, ?_⟩
  norm_num [effect_size_categorization]

/-- C5: the categorization at the boundary values: 0.5 is neutral ("  "),
1 is large positive ("+L"), 0 is large negative ("-L"). -/
theorem effect_size_categorization_boundary_values :
    effect_size_categorization 0.5 = some "  " ∧
    effect_size_categorization 1 = some "+L" ∧
    effect_size_categorization 0 = some "-L" := by
  refine ⟨?_, ?_, ?_⟩ <;> norm_num [effect_size_categorization]

/-- C6: for every effect size in [0,1] some branch of the threshold ladder
matches and a category is returned; the trailing raise (modelled as
`none`) is unreachable. -/
theorem effect_size_categorization_covers (e : ℚ) (h0 : 0 ≤ e) (h1 : e ≤ 1) :
    (effect_size_categorization e).isSome := by
  unfold effect_size_categorization
  split_ifs with hc1 hc2 hc3 hc4 hc5 hc6 hc7 hc8 hc9
  · rfl
  · rfl
  · rfl
  · rfl
  · rfl
  · rfl
  · rfl
  · rfl
  · rfl
  · exact absurd (le_antisymm (not_lt.mp hc4) (not_lt.mp hc9)) hc5

/-- Witness for C6 at the concrete input 0.3. -/
theorem effect_size_categorization_covers_witness :
    (effect_size_categorization 0.3).isSome :=
  effect_size_categorization_covers 0.3 (by norm_num) (by norm_num)

/-- C9: on two empty samples `a12` passes the equal-length assert but hits
the zero denominator (Python's ZeroDivisionError); on equal-length
non-empty samples it always returns a value. -/
theorem a12_empty_division_failure :
    a12 [] [] = .divByZero ∧
    ∀ baseline tweak : List Int, baseline.length = tweak.length → baseline ≠ [] →
      ∃ q, a12 baseline tweak = .ok q := by
  constructor
  · rfl
  · intro b t hlen hne
    have hb : b.length ≠ 0 := fun h => hne (List.length_eq_zero.mp h)
    have ht : t.length ≠ 0 := hlen ▸ hb
    have htne : t ≠ [] := fun h => ht (by simp [h])
    refine ⟨((moreCount t b : ℚ) + 0.5 * (sameCount t b : ℚ)) /
      ((t.length : ℚ) * (t.length : ℚ)), ?_⟩
    simp [a12, hlen, htne]

/-- Witness for C9: the division failure at ([], []) and a defined value at
([1], [2]). -/
theorem a12_empty_division_failure_witness :
    a12 [] [] = .divByZero ∧ ∃ q, a12 [(1 : Int)] [(2 : Int)] = .ok q :=
  ⟨a12_empty_division_failure.1,
   a12_empty_division_failure.2 [1] [2] rfl (by decide)⟩

lemma sum_map_add_nat {α : Type} (f g : α → Nat) (l : List α) :
    (l.map fun x => f x + g x).sum = (l.map f).sum + (l.map g).sum := by
  induction l with
  | nil => rfl
  | cons a t ih => simp only [List.map_cons, List.sum_cons, ih]; omega

lemma countP_eq_sum_map (q : Int → Bool) (l : List Int) :
    l.countP q = (l.map fun y => if q y then 1 else 0).sum := by
  induction l with
  | nil => rfl
  | cons a t ih =>
    simp only [List.countP_cons, List.map_cons, List.sum_cons, ih]
    omega

/-- Exchanging the two loops of a double count: summing per-`t`-element
counts over `b` equals summing per-`b`-element counts over `t`. -/
lemma sum_countP_comm (p : Int → Int → Bool) (t b : List Int) :
    (t.map fun x => b.countP fun y => p x y).sum =
    (b.map fun y => t.countP fun x => p x y).sum := by
  induction t with
  | nil => simp [List.countP_nil]
  | cons a t ih =>
    simp only [List.map_cons, List.sum_cons, List.countP_cons]
    rw [sum_map_add_nat (fun y => t.countP fun x => p x y) (fun y => if p a y then 1 else 0) b,
      ← ih, ← countP_eq_sum_map (fun y => p a y) b]
    omega

/-- Per tweak value x, the baseline values below, above and equal to x
partition the baseline. -/
lemma count_trichotomy (x : Int) (b : List Int) :
    ((b.countP fun y => decide (y < x)) + (b.countP fun y => decide (x < y))) +
      (b.countP fun y => decide (x = y)) = b.length := by
  induction b with
  | nil => rfl
  | cons y ys ih =>
    simp only [List.countP_cons, List.length_cons]
    rcases lt_trichotomy x y with h | h | h
    · simp only [decide_eq_true_eq]
      rw [if_neg (by exact not_lt.mpr h.le), if_pos h, if_neg h.ne]
      omega
    · simp only [decide_eq_true_eq]
      rw [if_neg (by exact h ▸ lt_irrefl x), if_neg (by exact h ▸ lt_irrefl x), if_pos h]
      omega
    · simp only [decide_eq_true_eq]
      rw [if_pos h, if_neg (by exact not_lt.mpr h.le), if_neg (by exact ne_of_gt h)]
      omega

/-- The three counters of the cross comparison between two samples sum to
the number of pairs. -/
lemma more_more_same (t b : List Int) :
    moreCount t b + moreCount b t + sameCount t b = t.length * b.length := by
  have hswap : moreCount b t = (t.map fun x => b.countP fun y => decide (x < y)).sum :=
    sum_countP_comm (fun x y => decide (y < x)) b t
  rw [hswap]
  unfold moreCount sameCount
  rw [← sum_map_add_nat, ← sum_map_add_nat]
  simp only [count_trichotomy]
  simp [List.map_const', List.sum_replicate, smul_eq_mul]

/-- The `same` count is symmetric in the two samples. -/
lemma sameCount_comm (t b : List Int) : sameCount t b = sameCount b t := by
  unfold sameCount
  rw [sum_countP_comm (fun x y => decide (x = y)) t b]
  have hcomm : ∀ z : Int, (t.countP fun w => decide (w = z)) = t.countP fun w => decide (z = w) := by
    intro z
    apply List.countP_congr
    intro w _
    simp only [decide_eq_true_eq]
    exact eq_comm
  simp only [hcomm]

/-- C2: for non-empty equal-length samples, the two orientations of `a12`
both return values and those values sum to exactly 1. -/
theorem a12_symmetry (A B : List Int) (hlen : A.length = B.length) (hA : A ≠ []) :
    ∃ p q, a12 A B = .ok p ∧ a12 B A = .ok q ∧ p + q = 1 := by
  have hA0 : A.length ≠ 0 := fun h => hA (List.length_eq_zero.mp h)
  have hB0 : B.length ≠ 0 := hlen ▸ hA0
  have hprod : ¬ (A.length * B.length = 0) := Nat.mul_ne_zero hA0 hB0
  have hprod' : ¬ (B.length * A.length = 0) := Nat.mul_ne_zero hB0 hA0
  have e1 : a12 A B = .ok (((moreCount B A : ℚ) + 0.5 * (sameCount B A : ℚ)) /
      ((A.length : ℚ) * (B.length : ℚ))) := by
    unfold a12; rw [if_pos hlen, if_neg hprod]
  have e2 : a12 B A = .ok (((moreCount A B : ℚ) + 0.5 * (sameCount A B : ℚ)) /
      ((B.length : ℚ) * (A.length : ℚ))) := by
    unfold a12; rw [if_pos hlen.symm, if_neg hprod']
  refine ⟨_, _, e1, e2, ?_⟩
  have key : moreCount B A + moreCount A B + sameCount B A = B.length * A.length :=
    more_more_same B A
  have keyQ : (moreCount B A : ℚ) + (moreCount A B : ℚ) + (sameCount B A : ℚ)
      = (A.length : ℚ) * (B.length : ℚ) := by
    rw [mul_comm] at key
    exact_mod_cast key
  have hsameQ : (sameCount A B : ℚ) = (sameCount B A : ℚ) := by
    exact_mod_cast sameCount_comm A B
  have hAq : (A.length : ℚ) ≠ 0 := Nat.cast_ne_zero.mpr hA0
  have hBq : (B.length : ℚ) ≠ 0 := Nat.cast_ne_zero.mpr hB0
  rw [hsameQ, mul_comm (B.length : ℚ) (A.length : ℚ), div_add_div_same,
    div_eq_one_iff_eq (mul_ne_zero hAq hBq)]
  linarith [keyQ]

/-- Witness for C2 at A = [1, 2], B = [3, 4]. -/
theorem a12_symmetry_witness :
    ∃ p q, a12 [1, 2] [3, 4] = .ok p ∧ a12 [3, 4] [1, 2] = .ok q ∧ p + q = 1 :=
  a12_symmetry [1, 2] [3, 4] rfl (by decide)

lemma insertionSort_replicate_zero (n : Nat) :
    (List.replicate n (0 : Int)).insertionSort (· ≤ ·) = List.replicate n 0 := by
  refine List.eq_replicate.mpr ⟨?_, ?_⟩
  · rw [(List.perm_insertionSort _ _).length_eq, List.length_replicate]
  · intro b hb
    exact List.eq_of_mem_replicate
      ((List.perm_insertionSort (· ≤ ·) (List.replicate n (0 : Int))).mem_iff.mp hb)

lemma getD_replicate_zero (n i : Nat) : (List.replicate n (0 : Int)).getD i 0 = 0 := by
  induction n generalizing i with
  | zero => rfl
  | succ m ih =>
    cases i with
    | zero => rfl
    | succ j => simpa [List.replicate_succ] using ih j

lemma median_replicate_zero (n : Nat) : median (List.replicate n 0) = 0 := by
  unfold median
  simp only [insertionSort_replicate_zero, getD_replicate_zero, List.length_replicate]
  split_ifs <;> norm_num

lemma mean_replicate_zero (n : Nat) : mean (List.replicate n 0) = 0 := by
  unfold mean
  simp [List.sum_replicate]

/-- C3, counterexample: a real non-focal candidate whose sample is all
zeros does not replace the synthetic NONE entry. -/
theorem pick_one_best_none_counterexample :
    pick_one_best [("A", [0, 0, 0, 0, 0])] "tweak" median mean 5 = ("NONE", [0, 0, 0, 0, 0]) ∧
    pick_one_best [("A", [0, 0, 0, 0, 0])] "tweak" median mean 5 ≠ ("A", [0, 0, 0, 0, 0]) := by
  have h : pick_one_best [("A", [0, 0, 0, 0, 0])] "tweak" median mean 5
      = ("NONE", [0, 0, 0, 0, 0]) := by
    norm_num [pick_one_best, pick_one_best_step, median, mean,
      List.insertionSort, List.orderedInsert, List.getD, List.foldl, List.replicate]
  exact ⟨h, by rw [h]; decide⟩

/-- C3, amended: the running best starts as the synthetic
`("NONE", [0] * expected_runs)` entry, and a real non-focal candidate
replaces it exactly when its median is positive, or its median is zero and
its mean is positive; a candidate with median 0 and mean ≤ 0 (such as an
all-zero sample) is not picked up. -/
theorem pick_one_best_initial_entry (k primary : String) (v : List Int) (n : Nat)
    (hn : 1 ≤ n) (hk : k ≠ primary) :
    pick_one_best [] primary median mean n = ("NONE", List.replicate n 0) ∧
    pick_one_best [(k, v)] primary median mean n =
      (if 0 < median v ∨ (median v = 0 ∧ 0 < mean v) then (k, v)
       else ("NONE", List.replicate n 0)) := by
  refine ⟨rfl, ?_⟩
  show pick_one_best_step primary median mean ("NONE", List.replicate n 0) (k, v) = _
  unfold pick_one_best_step
  simp only [median_replicate_zero, mean_replicate_zero]
  by_cases h1 : median v > 0
  · simp [hk, h1]
  · by_cases h2 : median v = 0
    · by_cases h3 : mean v > 0
      · simp [hk, h1, h2, h3]
      · simp [hk, h1, h2, h3]
    · simp [hk, h1, h2]

/-- Witness for C3 at candidate ("A", [5]) with expected_runs = 1. -/
theorem pick_one_best_initial_entry_witness :
    pick_one_best [("A", [5])] "t" median mean 1 =
      (if 0 < median [5] ∨ (median [5] = 0 ∧ 0 < mean [5]) then ("A", [5])
       else ("NONE", List.replicate 1 0)) :=
  (pick_one_best_initial_entry "A" "t" [5] 1 (by decide) (by decide)).2

/-- C4: a later candidate that ties the running best on the primary
statistic replaces it exactly when its secondary statistic is strictly
larger; if both statistics tie, the running (first-seen) best is kept. -/
theorem pick_one_best_tie_break (data : List (String × List Int)) (primary k : String)
    (v : List Int) (fmp fms : List Int → ℚ) (n : Nat) (hk : k ≠ primary)
    (hp : fmp v = fmp (pick_one_best data primary fmp fms n).2) :
    (fms v > fms (pick_one_best data primary fmp fms n).2 →
      pick_one_best (data ++ [(k, v)]) primary fmp fms n = (k, v)) ∧
    (fms v = fms (pick_one_best data primary fmp fms n).2 →
      pick_one_best (data ++ [(k, v)]) primary fmp fms n
        = pick_one_best data primary fmp fms n) := by
  have hfold : pick_one_best (data ++ [(k, v)]) primary fmp fms n =
      pick_one_best_step primary fmp fms (pick_one_best data primary fmp fms n) (k, v) := by
    unfold pick_one_best
    rw [List.foldl_append]
    rfl
  constructor
  · intro hs
    rw [hfold]
    unfold pick_one_best_step
    rw [if_neg hk, if_neg (not_lt.mpr (le_of_eq hp)), if_pos hp, if_pos hs]
  · intro hs
    rw [hfold]
    unfold pick_one_best_step
    rw [if_neg hk, if_neg (not_lt.mpr (le_of_eq hp)), if_pos hp,
      if_neg (not_lt.mpr (le_of_eq hs))]

/-- Witness for C4: candidate ("B", [2, 2]) ties ("A", [1, 3]) on both
median and mean, so the first-seen best is kept. -/
theorem pick_one_best_tie_break_witness :
    pick_one_best ([("A", [1, 3])] ++ [("B", [2, 2])]) "t" median mean 2
      = pick_one_best [("A", [1, 3])] "t" median mean 2 := by
  have h : pick_one_best [("A", [1, 3])] "t" median mean 2 = ("A", [1, 3]) := by
    norm_num [pick_one_best, pick_one_best_step, median, mean,
      List.insertionSort, List.orderedInsert, List.getD, List.foldl, List.replicate]
    decide
  refine (pick_one_best_tie_break [("A", [1, 3])] "t" "B" [2, 2] median mean 2
    (by decide) ?_).2 ?_
  · rw [h]
    norm_num [median, List.insertionSort, List.orderedInsert, List.getD]
  · rw [h]
    norm_num [mean]

lemma dedup_length_eq_iff_nodup (l : List Int) :
    l.dedup.length = l.length ↔ l.Nodup := by
  constructor
  · intro h
    have heq : l.dedup = l := (List.dedup_sublist l).eq_of_length h
    exact heq ▸ List.nodup_dedup l
  · intro h
    rw [List.dedup_eq_self.mpr h]

lemma contains_ties_iff (l : List Int) :
    contains_ties l = true ↔ ∃ x, 1 < l.count x := by
  have h1 : contains_ties l = true ↔ ¬ l.dedup.length = l.length := by
    unfold contains_ties
    split_ifs with h <;> simp [h]
  rw [h1, not_congr (dedup_length_eq_iff_nodup l), List.nodup_iff_count_le_one]
  push_neg
  rfl

/-- C7: in safe mode the Mann-Whitney-U wrapper fails exactly when the
combined data contains ties (some value occurring more than once in
baseline ++ tweak); with `unsafe` set it never fails on ties. -/
theorem mann_whitney_u_tie_gate (provider : List Int → List Int → ℚ × ℚ)
    (baseline tweak : List Int) (q r : Bool) :
    (mann_whitney_u provider baseline tweak false q = .tieFailure ↔
      contains_ties (baseline ++ tweak) = true) ∧
    (contains_ties (baseline ++ tweak) = true ↔
      ∃ x, 1 < (baseline ++ tweak).count x) ∧
    mann_whitney_u provider baseline tweak true r ≠ .tieFailure := by
  refine ⟨?_, contains_ties_iff _, ?_⟩
  · unfold mann_whitney_u
    cases hct : contains_ties (baseline ++ tweak) <;> simp [hct]
  · unfold mann_whitney_u
    simp

/-- Witness for C7: on combined data [1, 2] ++ [2, 3] (the value 2 occurs
twice) safe mode fails and unsafe mode does not. -/
theorem mann_whitney_u_tie_gate_witness :
    mann_whitney_u (fun _ _ => (0, 0)) [1, 2] [2, 3] false true = .tieFailure ∧
    mann_whitney_u (fun _ _ => (0, 0)) [1, 2] [2, 3] true true ≠ .tieFailure := by
  have h := mann_whitney_u_tie_gate (fun _ _ => (0, 0)) [1, 2] [2, 3] true true
  exact ⟨h.1.mpr (by decide), h.2.2⟩

/-- C8: when the full-comparison orchestrator is handed a sample set of
exactly 2 fuzzers, it dispatches to the two-sample path and never reaches
the k-sample (ANOVA) provider call. -/
theorem test_data_two_fuzzers (data : List (String × List Int)) (args : Args)
    (h : data.length = 2) :
    test_data data args = .twoWay ∧
    ∀ fuzzers, test_data data args ≠ .anovaRun fuzzers := by
  have ht : test_data data args = .twoWay := by
    unfold test_data
    rw [if_pos h]
  exact ⟨ht, fun fuzzers => by rw [ht]; exact fun hcon => TestDataOutcome.noConfusion hcon⟩

/-- Witness for C8 on a concrete 2-fuzzer sample set. -/
theorem test_data_two_fuzzers_witness :
    test_data [("A", [1, 2, 3]), ("B", [4, 5, 6])] ⟨"A", 3, false⟩ = .twoWay :=
  (test_data_two_fuzzers [("A", [1, 2, 3]), ("B", [4, 5, 6])] ⟨"A", 3, false⟩ rfl).1

/-- C10: `find_best_competitor` hits the `max([])` ValueError exactly when
the mapping has no fuzzer name other than the focal one (in particular on
the empty mapping and on a mapping whose only key is the focal name). -/
theorem find_best_competitor_no_candidates (tweak method : String)
    (data : List (String × List Int)) :
    find_best_competitor tweak data method = .error no_competitor_msg ↔
      ∀ p ∈ data, p.1 = tweak := by
  cases hfil : data.filter (fun p => p.1 ≠ tweak) with
  | nil =>
    have hres : find_best_competitor tweak data method = .error no_competitor_msg := by
      simp only [find_best_competitor]
      rw [hfil]
      rfl
    simp only [hres, true_iff]
    intro p hp
    by_contra hne
    have hmem : p ∈ data.filter (fun p => p.1 ≠ tweak) :=
      List.mem_filter.mpr ⟨hp, by simp [hne]⟩
    rw [hfil] at hmem
    exact absurd hmem (List.not_mem_nil p)
  | cons a rest =>
    have hok : ∃ out, find_best_competitor tweak data method = .ok out := by
      simp only [find_best_competitor]
      rw [hfil]
      exact ⟨_, rfl⟩
    obtain ⟨out, hout⟩ := hok
    rw [hout]
    constructor
    · intro hcon
      exact absurd hcon (by simp)
    · intro hall
      have ha : a ∈ data.filter (fun p => p.1 ≠ tweak) := by
        rw [hfil]
        exact List.mem_cons_self a rest
      have hmem := List.mem_filter.mp ha
      have hne : a.1 ≠ tweak := by simpa using hmem.2
      exact absurd (hall a hmem.1) hne

/-- Witness for C10: the ValueError on a mapping whose only key is the
focal fuzzer. -/
theorem find_best_competitor_no_candidates_witness :
    find_best_competitor "t" [("t", [1, 2, 3])] "median" = .error no_competitor_msg :=
  (find_best_competitor_no_candidates "t" "median" [("t", [1, 2, 3])]).mpr (by decide)

end Statistics
